import Mathlib

/-!
Verification of the order-synchronization pipeline and per-side production
state machine of the LightBurn automation server.

The definitions below are a shallow embedding of the TypeScript source:
strings are `List Char`, the SQLite order rows are the `OrderRow` structure,
and the asynchronous route handlers become pure state-passing functions.
The external generation/renderer step is abstracted as a `GenOutcome`
parameter (success or a thrown error message), exactly the seam at which
`handleSideProcessing` observes it.
-/

namespace VictoriaLaser

/-! ### String machinery (JS string operations on `List Char`) -/

/-- Convert a Lean string literal to the character-list representation. -/
def str (s : String) : List Char := s.toList

/-- JS `toLowerCase()` (ASCII, which covers every string in the source). -/
def lower (s : List Char) : List Char := s.map Char.toLower

/-- JS `String.prototype.startsWith`: `isPre pat s` is true when `pat` is a
leading segment of `s`. -/
def isPre : List Char → List Char → Bool
  | [], _ => true
  | _ :: _, [] => false
  | a :: as, b :: bs => a == b && isPre as bs

/-- JS `String.prototype.includes`: substring occurrence test. -/
def containsSub : List Char → List Char → Bool
  | [], pat => isPre pat []
  | c :: rest, pat => isPre pat (c :: rest) || containsSub rest pat

/-- JS `String.prototype.endsWith`. -/
def endsWith (s pat : List Char) : Bool :=
  decide (s.drop (s.length - pat.length) = pat)

/-- Occurrence of `a` followed (anywhere later) by `b`: the boolean meaning of
the regex fragment `a.*b` (the dot is modelled as matching any character). -/
def containsSeq : List Char → List Char → List Char → Bool
  | [], a, b => isPre a [] && containsSub [] b
  | c :: rest, a, b =>
    (isPre a (c :: rest) && containsSub ((c :: rest).drop a.length) b)
      || containsSeq rest a b

/-! ### Statuses and the status aggregator -/

/-- The five-valued side status column (`not_required` is used by the retro
side only, but the column type admits it for both). -/
inductive SideStatus where
  | not_required
  | pending
  | processing
  | printed
  | error
deriving DecidableEq, Repr

/-- The four-valued overall order status. -/
inductive OverallStatus where
  | pending
  | processing
  | printed
  | error
deriving DecidableEq, Repr

/-- `calculateOverallStatus` from the server: error first, then processing,
then the both-sides-printed check, otherwise pending. -/
def calculateOverallStatus (fronteStatus retroStatus : SideStatus) : OverallStatus :=
  if fronteStatus = .error ∨ retroStatus = .error then .error
  else if fronteStatus = .processing ∨ retroStatus = .processing then .processing
  else if fronteStatus = .printed ∧ (retroStatus = .printed ∨ retroStatus = .not_required) then .printed
  else .pending

/-- Modelled from the spec's words, for comparison with
`calculateOverallStatus`: the aggregation invariant written in the spec's
own case order (printed, error, processing, otherwise pending). -/
def specOverallStatus (fronteStatus retroStatus : SideStatus) : OverallStatus :=
  if fronteStatus = .printed ∧ (retroStatus = .printed ∨ retroStatus = .not_required) then .printed
  else if fronteStatus = .error ∨ retroStatus = .error then .error
  else if fronteStatus = .processing ∨ retroStatus = .processing then .processing
  else .pending

/-- C2: the Status Aggregator computes printed iff front printed and retro
printed-or-not-required; error if either side errors; processing if either
side is processing; otherwise pending, in that priority order, and agrees
with the spec's case ordering on every input; with the three concrete
examples from the spec. -/
theorem overall_status_aggregation :
    (∀ f r : SideStatus, calculateOverallStatus f r = specOverallStatus f r)
    ∧ (∀ f r : SideStatus,
        calculateOverallStatus f r = .printed ↔
          (f = .printed ∧ (r = .printed ∨ r = .not_required)))
    ∧ calculateOverallStatus .printed .not_required = .printed
    ∧ calculateOverallStatus .printed .pending = .pending
    ∧ calculateOverallStatus .error .printed = .error := by
  refine ⟨?_, ?_, rfl, rfl, rfl⟩
  · intro f r
    cases f <;> cases r <;> rfl
  · intro f r
    cases f <;> cases r <;> decide

/-! ### Template rules and `findTemplateForSku` -/

/-- A row of the `template_rules` table. -/
structure TemplateRule where
  skuPattern : List Char
  templateFilename : List Char
  priority : Int
deriving DecidableEq, Repr

/-- The strict part of the comparator passed to `rules.sort`: `a` is ordered
strictly before `b` when it has higher priority, or equal priority and a
longer pattern. -/
def ruleStrictBefore (a b : TemplateRule) : Bool :=
  decide (b.priority < a.priority)
    || (decide (a.priority = b.priority) && decide (b.skuPattern.length < a.skuPattern.length))

/-- `a` may appear no later than `b` in the sorted rule list. -/
def ruleLE (a b : TemplateRule) : Bool := !ruleStrictBefore b a

/-- Stable insertion of a rule into an already sorted list; the inserted rule
goes before the first element it is not strictly preceded by, so that rules
tied on priority and pattern length keep their incoming order. -/
def insertRule (r : TemplateRule) : List TemplateRule → List TemplateRule
  | [] => [r]
  | x :: xs => if ruleStrictBefore x r then x :: insertRule r xs else r :: x :: xs

/-- The stable sort applied to the rule list: priority descending, ties by
pattern length descending (JS `Array.prototype.sort` is stable). -/
def sortRules : List TemplateRule → List TemplateRule
  | [] => []
  | r :: rs => insertRule r (sortRules rs)

/-- The two sides of an order. -/
inductive Side where
  | front
  | retro
deriving DecidableEq, Repr

def retroSuffix : List Char := str "-retro.lbrn2"
def fronteSuffix : List Char := str "-fronte.lbrn2"
def lbrn2Suffix : List Char := str ".lbrn2"

/-- Side compatibility of a template filename, exactly the condition tested
inside the matching loop: retro requires the `-retro.lbrn2` suffix; front
accepts `-fronte.lbrn2` or a generic `.lbrn2` name without the retro
suffix. -/
def sideCompatible (side : Side) (templateFilename : List Char) : Bool :=
  let templateName := lower templateFilename
  match side with
  | .retro => endsWith templateName retroSuffix
  | .front =>
    endsWith templateName fronteSuffix
      || (!endsWith templateName retroSuffix && endsWith templateName lbrn2Suffix)

/-- The pattern-matching loop of `findTemplateForSku`: walk the sorted rules;
on a pattern hit check the side-specific filename condition; an incompatible
filename falls through to the next rule. -/
def findLoop (normalizedSku : List Char) (side : Side) : List TemplateRule → Option (List Char)
  | [] => none
  | rule :: rest =>
    if containsSub normalizedSku (lower rule.skuPattern) then
      let templateName := lower rule.templateFilename
      match side with
      | .retro =>
        if endsWith templateName retroSuffix then some rule.templateFilename
        else findLoop normalizedSku side rest
      | .front =>
        if endsWith templateName fronteSuffix
            || (!endsWith templateName retroSuffix && endsWith templateName lbrn2Suffix) then
          some rule.templateFilename
        else findLoop normalizedSku side rest
    else findLoop normalizedSku side rest

/-- `findTemplateForSku`: a null or empty SKU and an empty rule list resolve
to nothing; otherwise the rules are sorted and walked by `findLoop` against
the lowercased SKU. -/
def findTemplateForSku (sku : Option (List Char)) (side : Side)
    (rules : List TemplateRule) : Option (List Char) :=
  match sku with
  | none => none
  | some s =>
    if s.isEmpty then none
    else if rules.isEmpty then none
    else findLoop (lower s) side (sortRules rules)

/-- `hasRetroTemplate`: a retro template exists for the SKU. -/
def hasRetroTemplate (sku : Option (List Char)) (rules : List TemplateRule) : Bool :=
  (findTemplateForSku sku .retro rules).isSome

/-- The acceptance condition of the claim: the SKU contains the rule's
pattern case-insensitively and the filename is compatible with the side. -/
def ruleAccepts (sku : List Char) (side : Side) (rule : TemplateRule) : Bool :=
  containsSub (lower sku) (lower rule.skuPattern) && sideCompatible side rule.templateFilename

lemma findLoop_eq_find? (normalizedSku : List Char) (side : Side) :
    ∀ rules : List TemplateRule,
      findLoop normalizedSku side rules =
        (rules.find? fun r =>
          containsSub normalizedSku (lower r.skuPattern)
            && sideCompatible side r.templateFilename).map TemplateRule.templateFilename
  | [] => rfl
  | rule :: rest => by
    rw [List.find?_cons]
    by_cases hm : containsSub normalizedSku (lower rule.skuPattern) = true
    · cases side with
      | retro =>
        by_cases hc : endsWith (lower rule.templateFilename) retroSuffix = true
        · simp [findLoop, hm, hc, sideCompatible]
        · simp only [Bool.not_eq_true] at hc
          simp [findLoop, hm, hc, sideCompatible,
            findLoop_eq_find? normalizedSku Side.retro rest]
      | front =>
        by_cases hc : (endsWith (lower rule.templateFilename) fronteSuffix
            || (!endsWith (lower rule.templateFilename) retroSuffix
                && endsWith (lower rule.templateFilename) lbrn2Suffix)) = true
        · simp [findLoop, hm, hc, sideCompatible]
        · simp only [Bool.not_eq_true] at hc
          simp [findLoop, hm, hc, sideCompatible,
            findLoop_eq_find? normalizedSku Side.front rest]
    · simp only [Bool.not_eq_true] at hm
      cases side with
      | retro =>
        simp [findLoop, hm, ruleAccepts, sideCompatible,
          findLoop_eq_find? normalizedSku Side.retro rest]
      | front =>
        simp [findLoop, hm, ruleAccepts, sideCompatible,
          findLoop_eq_find? normalizedSku Side.front rest]

lemma insertRule_perm (r : TemplateRule) :
    ∀ l : List TemplateRule, (insertRule r l).Perm (r :: l)
  | [] => List.Perm.refl _
  | x :: xs => by
    unfold insertRule
    by_cases h : ruleStrictBefore x r = true
    · simp only [h, if_true]
      exact ((insertRule_perm r xs).cons x).trans (List.Perm.swap r x xs)
    · simp [h]

lemma sortRules_perm : ∀ rules : List TemplateRule, (sortRules rules).Perm rules
  | [] => List.Perm.refl _
  | r :: rs =>
    (insertRule_perm r (sortRules rs)).trans ((sortRules_perm rs).cons r)

lemma ruleStrictBefore_iff (a b : TemplateRule) :
    ruleStrictBefore a b = true ↔
      (b.priority < a.priority
        ∨ (a.priority = b.priority ∧ b.skuPattern.length < a.skuPattern.length)) := by
  unfold ruleStrictBefore
  simp

lemma ruleLE_iff (a b : TemplateRule) :
    ruleLE a b = true ↔
      (b.priority ≤ a.priority
        ∧ (b.priority = a.priority → b.skuPattern.length ≤ a.skuPattern.length)) := by
  unfold ruleLE
  rw [Bool.not_eq_true']
  rw [← Bool.not_eq_true (ruleStrictBefore b a)]
  rw [ruleStrictBefore_iff]
  constructor
  · intro h
    push_neg at h
    omega
  · intro h
    push_neg
    omega

lemma ruleLE_trans {a b c : TemplateRule}
    (hab : ruleLE a b = true) (hbc : ruleLE b c = true) : ruleLE a c = true := by
  rw [ruleLE_iff] at *
  omega

lemma insertRule_sorted (r : TemplateRule) :
    ∀ l : List TemplateRule, l.Pairwise (fun a b => ruleLE a b = true) →
      (insertRule r l).Pairwise (fun a b => ruleLE a b = true)
  | [], _ => List.pairwise_singleton _ r
  | x :: xs, h => by
    obtain ⟨hx, hxs⟩ := List.pairwise_cons.mp h
    unfold insertRule
    by_cases hc : ruleStrictBefore x r = true
    · simp only [hc, if_true, List.pairwise_cons]
      refine ⟨?_, insertRule_sorted r xs hxs⟩
      intro y hy
      have hy' := (insertRule_perm r xs).mem_iff.mp hy
      rcases List.mem_cons.mp hy' with hEq | hMem
      · subst hEq
        rw [ruleLE_iff]
        rw [ruleStrictBefore_iff] at hc
        omega
      · exact hx y hMem
    · rw [if_neg hc]
      rw [List.pairwise_cons]
      have hrx : ruleLE r x = true := by
        have hc' : ruleStrictBefore x r = false := by simpa using hc
        simp [ruleLE, hc']
      refine ⟨?_, h⟩
      intro y hy
      rcases List.mem_cons.mp hy with hEq | hMem
      · subst hEq; exact hrx
      · exact ruleLE_trans hrx (hx y hMem)

lemma sortRules_sorted :
    ∀ rules : List TemplateRule,
      (sortRules rules).Pairwise (fun a b => ruleLE a b = true)
  | [] => List.Pairwise.nil
  | r :: rs => insertRule_sorted r (sortRules rs) (sortRules_sorted rs)

/-- C1: template resolution returns the filename of the first rule, in
priority-descending order with ties broken by longer pattern, whose
lowercased pattern occurs in the lowercased SKU and whose filename is
compatible with the requested side; incompatible pattern matches are
skipped, an empty or exhausted rule list yields none, the walked list is a
sorted permutation of the rules, and the spec's concrete MUG example
resolves to `b-fronte.lbrn2`. -/
theorem template_resolution_first_compatible_match :
    (∀ (sku : List Char) (side : Side) (rules : List TemplateRule), sku ≠ [] →
      findTemplateForSku (some sku) side rules =
        ((sortRules rules).find? (ruleAccepts sku side)).map TemplateRule.templateFilename)
    ∧ (∀ (sku : Option (List Char)) (side : Side), findTemplateForSku sku side [] = none)
    ∧ (∀ rules : List TemplateRule, (sortRules rules).Perm rules
        ∧ (sortRules rules).Pairwise (fun a b => ruleLE a b = true))
    ∧ findTemplateForSku (some (str "MUG-RED-01")) Side.front
        [⟨str "MUG", str "a-fronte.lbrn2", 1⟩, ⟨str "MUG-RED", str "b-fronte.lbrn2", 5⟩]
        = some (str "b-fronte.lbrn2") := by
  refine ⟨?_, ?_, fun rules => ⟨sortRules_perm rules, sortRules_sorted rules⟩, by decide⟩
  · intro sku side rules hsku
    have hne : sku.isEmpty = false := by
      cases sku with
      | nil => exact absurd rfl hsku
      | cons c cs => rfl
    simp only [findTemplateForSku, hne, Bool.false_eq_true, if_false]
    by_cases hr : rules.isEmpty = true
    · have h0 : rules = [] := List.isEmpty_iff.mp hr
      subst h0
      simp [sortRules]
    · have hr' : rules.isEmpty = false := by simpa using hr
      simp only [hr', Bool.false_eq_true, if_false]
      exact findLoop_eq_find? (lower sku) side (sortRules rules)
  · intro sku side
    cases sku with
    | none => rfl
    | some s => simp [findTemplateForSku]

/-- Witness for the quantified part of C1 at a concrete SKU, side and rule
list. -/
theorem template_resolution_witness :
    findTemplateForSku (some (str "PEN-7")) Side.retro
        [⟨str "PEN", str "pen-retro.lbrn2", 0⟩] =
      ((sortRules [⟨str "PEN", str "pen-retro.lbrn2", 0⟩]).find?
        (ruleAccepts (str "PEN-7") Side.retro)).map TemplateRule.templateFilename :=
  template_resolution_first_compatible_match.1 (str "PEN-7") Side.retro
    [⟨str "PEN", str "pen-retro.lbrn2", 0⟩] (by decide)

/-! ### Asset rules and `detectAssets` -/

/-- The three decorative asset kinds. -/
inductive AssetType where
  | image
  | font
  | color
deriving DecidableEq, Repr

/-- A row of the `asset_rules` table. -/
structure AssetRule where
  triggerKeyword : List Char
  assetType : AssetType
  value : List Char
deriving DecidableEq, Repr

/-- The three detected slots, all initially unset. -/
@[ext] structure DetectedAssets where
  imageAsset : Option (List Char) := none
  fontAsset : Option (List Char) := none
  colorAsset : Option (List Char) := none
deriving DecidableEq, Repr

/-- One iteration of the `detectAssets` scan: when the lowercased keyword
occurs in the (already lowercased) custom field, overwrite the slot for the
rule's asset type. -/
def applyAssetRule (normalizedField : List Char) (detected : DetectedAssets)
    (rule : AssetRule) : DetectedAssets :=
  if containsSub normalizedField (lower rule.triggerKeyword) then
    match rule.assetType with
    | .image => { detected with imageAsset := some rule.value }
    | .font => { detected with fontAsset := some rule.value }
    | .color => { detected with colorAsset := some rule.value }
  else detected

/-- `detectAssets`: a null or empty custom field yields no assets; otherwise
every rule is scanned in order and each hit overwrites its slot. -/
def detectAssets (customField : Option (List Char)) (rules : List AssetRule) : DetectedAssets :=
  match customField with
  | none => {}
  | some text =>
    if text.isEmpty then {}
    else rules.foldl (applyAssetRule (lower text)) {}

/-- Project the slot for an asset type out of the detection result. -/
def slotOf (t : AssetType) (d : DetectedAssets) : Option (List Char) :=
  match t with
  | .image => d.imageAsset
  | .font => d.fontAsset
  | .color => d.colorAsset

/-- The claim's characterization of one slot: the value of the last rule in
iteration order whose keyword occurs case-insensitively in the text and
whose type owns the slot; unset when no rule matches. -/
def lastMatchValue (text : List Char) (t : AssetType) (rules : List AssetRule) :
    Option (List Char) :=
  (rules.reverse.find? fun r =>
    containsSub (lower text) (lower r.triggerKeyword) && decide (r.assetType = t)).map
    AssetRule.value

/-- First element of the left list wins in `find?` over an append. -/
lemma find?_append {α : Type} (p : α → Bool) :
    ∀ l₁ l₂ : List α, (l₁ ++ l₂).find? p =
      match l₁.find? p with
      | some x => some x
      | none => l₂.find? p
  | [], l₂ => rfl
  | a :: l₁, l₂ => by
    by_cases h : p a = true
    · simp [List.find?_cons, h]
    · have h' : p a = false := by simpa using h
      simp [List.find?_cons, h', find?_append p l₁ l₂]

lemma applyAssetRule_slot (nf : List Char) (d : DetectedAssets) (r : AssetRule)
    (t : AssetType) :
    slotOf t (applyAssetRule nf d r) =
      if containsSub nf (lower r.triggerKeyword) && decide (r.assetType = t) then
        some r.value
      else slotOf t d := by
  unfold applyAssetRule
  by_cases h : containsSub nf (lower r.triggerKeyword) = true
  · cases ht : r.assetType <;> cases t <;> simp [h, ht, slotOf]
  · have h' : containsSub nf (lower r.triggerKeyword) = false := by simpa using h
    simp [h', slotOf]

lemma foldl_assets_slot (nf : List Char) (t : AssetType) :
    ∀ (rules : List AssetRule) (d : DetectedAssets),
      slotOf t (rules.foldl (applyAssetRule nf) d) =
        match (rules.reverse.find? fun r =>
            containsSub nf (lower r.triggerKeyword) && decide (r.assetType = t)) with
        | some r => some r.value
        | none => slotOf t d
  | [], d => rfl
  | r :: rs, d => by
    rw [List.foldl_cons, List.reverse_cons, find?_append]
    rw [foldl_assets_slot nf t rs (applyAssetRule nf d r)]
    cases hf : (rs.reverse.find? fun r =>
        containsSub nf (lower r.triggerKeyword) && decide (r.assetType = t)) with
    | some x => rfl
    | none =>
      rw [applyAssetRule_slot]
      by_cases h : (containsSub nf (lower r.triggerKeyword) && decide (r.assetType = t)) = true
      · simp [List.find?_cons, h]
      · have h' : (containsSub nf (lower r.triggerKeyword) && decide (r.assetType = t)) = false := by
          simpa using h
        simp [List.find?_cons, h']

lemma containsSub_nil_of_ne {pat : List Char} (h : pat ≠ []) :
    containsSub [] (lower pat) = false := by
  cases pat with
  | nil => exact absurd rfl h
  | cons c cs => rfl

/-- C4: for every input text, `detectAssets` fills each slot with the value
of the last matching rule in iteration order for that slot's asset type
(keywords are matched as case-insensitive substrings); a slot with no
matching rule stays unset; with a concrete example showing that of two
matching color rules the later one wins. -/
theorem asset_detection_last_match_wins :
    (∀ (text : List Char) (rules : List AssetRule),
      (∀ r ∈ rules, r.triggerKeyword ≠ []) →
      detectAssets (some text) rules =
        { imageAsset := lastMatchValue text .image rules,
          fontAsset := lastMatchValue text .font rules,
          colorAsset := lastMatchValue text .color rules })
    ∧ detectAssets (some (str "make it red please"))
        [⟨str "red", .color, str "colA"⟩, ⟨str "RED", .color, str "colB"⟩] =
        { colorAsset := some (str "colB") }
    ∧ (str "colB") ≠ (str "colA") := by
  refine ⟨?_, by decide, by decide⟩
  intro text rules hkw
  have slotEq : ∀ t, slotOf t (detectAssets (some text) rules) = lastMatchValue text t rules := by
    intro t
    simp only [detectAssets, lastMatchValue]
    by_cases hT : text.isEmpty = true
    · have h0 : text = [] := List.isEmpty_iff.mp hT
      subst h0
      rw [if_pos hT]
      have hfind : (List.find? (fun r =>
          containsSub (lower []) (lower r.triggerKeyword) && decide (r.assetType = t))
          rules.reverse) = none := by
        rw [List.find?_eq_none]
        intro r hr
        have hr' : r ∈ rules := List.mem_reverse.mp hr
        have hcs : containsSub [] (lower r.triggerKeyword) = false :=
          containsSub_nil_of_ne (hkw r hr')
        have hz : lower ([] : List Char) = [] := rfl
        rw [hz, hcs]
        simp
      rw [hfind]
      cases t <;> rfl
    · rw [if_neg hT]
      rw [foldl_assets_slot]
      cases hf : (List.find? (fun r =>
          containsSub (lower text) (lower r.triggerKeyword) && decide (r.assetType = t))
          rules.reverse) with
      | some x => rfl
      | none => cases t <;> rfl
  ext1
  · exact slotEq .image
  · exact slotEq .font
  · exact slotEq .color

/-- Witness for C4 at a concrete text and rule list with nonempty
keywords. -/
theorem asset_detection_witness :
    detectAssets (some (str "blue skull logo"))
        [⟨str "skull", .image, str "skull.png"⟩, ⟨str "blue", .color, str "#00f"⟩] =
      { imageAsset := lastMatchValue (str "blue skull logo") .image
          [⟨str "skull", .image, str "skull.png"⟩, ⟨str "blue", .color, str "#00f"⟩],
        fontAsset := lastMatchValue (str "blue skull logo") .font
          [⟨str "skull", .image, str "skull.png"⟩, ⟨str "blue", .color, str "#00f"⟩],
        colorAsset := lastMatchValue (str "blue skull logo") .color
          [⟨str "skull", .image, str "skull.png"⟩, ⟨str "blue", .color, str "#00f"⟩] } :=
  asset_detection_last_match_wins.1 (str "blue skull logo")
    [⟨str "skull", .image, str "skull.png"⟩, ⟨str "blue", .color, str "#00f"⟩]
    (by decide)

/-! ### Order rows and the side job processor -/

/-- Per-side state columns of an order row. Timestamps are abstracted as
naturals. -/
@[ext] structure SideState where
  status : SideStatus
  errorMessage : Option (List Char)
  attemptCount : Nat
  processedAt : Option Nat
deriving DecidableEq, Repr

/-- A persisted order row: identity, SKU, the order-level status columns
still used by the legacy endpoints, and the two side-state groups. -/
@[ext] structure OrderRow where
  orderId : List Char
  sku : Option (List Char)
  status : OverallStatus
  errorMessage : Option (List Char)
  attemptCount : Nat
  processedAt : Option Nat
  fronte : SideState
  retro : SideState
  updatedAt : Nat
deriving DecidableEq, Repr

/-- The opposite side. -/
def Side.other : Side → Side
  | .front => .retro
  | .retro => .front

/-- Read the requested side's state group. -/
def getSide (o : OrderRow) : Side → SideState
  | .front => o.fronte
  | .retro => o.retro

/-- Replace the requested side's state group. -/
def setSide (o : OrderRow) (side : Side) (st : SideState) : OrderRow :=
  match side with
  | .front => { o with fronte := st }
  | .retro => { o with retro := st }

/-- `updateOverallStatus`: recompute the derived status from the two side
statuses and persist it (touching `updatedAt`) only when it changed. -/
def updateOverallStatus (now : Nat) (o : OrderRow) : OrderRow :=
  let newStatus := calculateOverallStatus o.fronte.status o.retro.status
  if o.status ≠ newStatus then { o with status := newStatus, updatedAt := now } else o

/-- The tag tested by `startsWith('CONFIG_ERROR:')`. -/
def configErrorTag : List Char := str "CONFIG_ERROR:"

/-- The classification regex
`/NO_TEMPLATE_MATCH:|TEMPLATE_FILE_NOT_FOUND:|no template|configuration required|template.*not found/i`
as a boolean test (the dot is modelled as matching any character). -/
def configErrorTest (errorMessage : List Char) : Bool :=
  let m := lower errorMessage
  containsSub m (str "no_template_match:")
    || containsSub m (str "template_file_not_found:")
    || containsSub m (str "no template")
    || containsSub m (str "configuration required")
    || containsSeq m (str "template") (str "not found")

/-- Store the message under the distinguishable marker, without doubling an
existing one. -/
def tagConfig (msg : List Char) : List Char :=
  if isPre configErrorTag msg then msg else str "CONFIG_ERROR: " ++ msg

/-- The pre-flight migration step: an `error` side whose stored message
matches the configuration-error pattern but is not yet tagged gets retagged
and its attempt count pinned to 999 before processing continues. -/
def migrateOldConfigError (now : Nat) (side : Side) (o : OrderRow) : OrderRow :=
  match (getSide o side).errorMessage with
  | none => o
  | some m =>
    if (getSide o side).status = .error ∧ m ≠ [] ∧ configErrorTest m = true
        ∧ isPre configErrorTag m = false then
      { setSide o side { getSide o side with
          errorMessage := some (str "CONFIG_ERROR: " ++ m), attemptCount := 999 }
        with updatedAt := now }
    else o

/-- Outcome of `generateLightBurnProject` (generation, renderer launch and
verification), as observed by the route handler: success, or a thrown error
carrying its message. -/
inductive GenOutcome where
  | ok
  | fail (msg : List Char)
deriving DecidableEq, Repr

/-- The handler's observable reply. -/
inductive Reply where
  | sideNotRequired
  | alreadyProcessing
  | success (alreadyPrintedWarning : Bool)
  | configErrorReply
  | transientErrorReply
deriving DecidableEq, Repr

/-- `handleSideProcessing`: pre-flight validation (`not_required` retro and
`processing` conflicts reject with no write), old-config-error migration,
the transition to `processing` (clearing the side's error message), then on
the generation outcome either the `printed` success write or the classified
failure write, each followed by the overall-status recomputation. -/
def handleSideProcessing (side : Side) (outcome : GenOutcome) (now : Nat)
    (o : OrderRow) : OrderRow × Reply :=
  if side = .retro ∧ (getSide o side).status = .not_required then
    (o, .sideNotRequired)
  else if (getSide o side).status = .processing then
    (o, .alreadyProcessing)
  else
    let currentStatus := (getSide o side).status
    let currentAttemptCount := (getSide o side).attemptCount
    let o1 := migrateOldConfigError now side o
    let o2 := { setSide o1 side
        { getSide o1 side with status := .processing, errorMessage := none }
      with updatedAt := now }
    match outcome with
    | .ok =>
      let o3 :=
        { setSide o2 side
            { getSide o2 side with
              status := .printed
              processedAt := some now
              errorMessage := none }
          with updatedAt := now }
      (updateOverallStatus now o3, .success (decide (currentStatus = .printed)))
    | .fail msg =>
      if configErrorTest msg then
        let o3 :=
          { setSide o2 side
              { getSide o2 side with
                status := .error
                errorMessage := some (tagConfig msg)
                attemptCount := 999 }
            with updatedAt := now }
        (updateOverallStatus now o3, .configErrorReply)
      else
        let newAttemptCount := currentAttemptCount + 1
        let o3 :=
          { setSide o2 side
              { getSide o2 side with
                status := if newAttemptCount < 3 then .pending else .error
                errorMessage := some msg
                attemptCount := newAttemptCount }
            with updatedAt := now }
        (updateOverallStatus now o3, .transientErrorReply)

/-- Reply of the manual reset/retry endpoint. -/
inductive RetryReply where
  | processingReject
  | invalidStatusReject
  | resetOk
deriving DecidableEq, Repr

/-- The `POST /orders/:orderId/retry` handler on the order-level status
columns: reject while `processing`, reject unless the status is `error` or
`printed`, otherwise clear the error message, zero the attempt count and
return the status to `pending`. -/
def retryOrder (now : Nat) (o : OrderRow) : OrderRow × RetryReply :=
  if o.status = .processing then (o, .processingReject)
  else if o.status ≠ .error ∧ o.status ≠ .printed then (o, .invalidStatusReject)
  else
    ({ o with
        status := .pending
        errorMessage := none
        attemptCount := 0
        updatedAt := now }, .resetOk)

/-- The `NO_TEMPLATE_MATCH` error message thrown when no template resolves. -/
def noTemplateMatchMsg (sku sideLabel : List Char) : List Char :=
  str "NO_TEMPLATE_MATCH: No template found for SKU \u0027" ++ sku
    ++ str "\u0027 (side: " ++ sideLabel ++ str ")"

/-- The `TEMPLATE_FILE_NOT_FOUND` error message thrown when the resolved
template file is missing on disk. -/
def templateFileNotFoundMsg (matchedTemplate templatePath : List Char) : List Char :=
  str "TEMPLATE_FILE_NOT_FOUND: Template file \u0022" ++ matchedTemplate
    ++ str "\u0022 not found at path: " ++ templatePath

/-- The renderer timeout message, a representative transient failure. -/
def lightburnTimeoutMsgExample : List Char :=
  str "LIGHTBURN_TIMEOUT: LightBurn took too long to respond after 3 attempts"

/-- A concrete order row shared by the concrete scenarios below. -/
def baseOrder : OrderRow :=
  { orderId := str "ORD-1"
    sku := some (str "MUG-RED-01")
    status := .pending
    errorMessage := none
    attemptCount := 0
    processedAt := none
    fronte := { status := .pending, errorMessage := none, attemptCount := 0, processedAt := none }
    retro := { status := .not_required, errorMessage := none, attemptCount := 0, processedAt := none }
    updatedAt := 0 }

/-! ### Frame and classification lemmas for the side job processor -/

lemma getSide_setSide (o : OrderRow) (side : Side) (st : SideState) :
    getSide (setSide o side st) side = st := by
  cases side <;> rfl

lemma getSide_updatedAt (o : OrderRow) (side : Side) (n : Nat) :
    getSide { o with updatedAt := n } side = getSide o side := by
  cases side <;> rfl

lemma getSide_updateOverall (n : Nat) (o : OrderRow) (side : Side) :
    getSide (updateOverallStatus n o) side = getSide o side := by
  simp only [updateOverallStatus]
  split
  · cases side <;> rfl
  · rfl

lemma migrate_processedAt (now : Nat) (side : Side) (o : OrderRow) :
    (getSide (migrateOldConfigError now side o) side).processedAt =
      (getSide o side).processedAt := by
  unfold migrateOldConfigError
  split
  · rfl
  · split
    · rw [getSide_updatedAt, getSide_setSide]
    · rfl

/-- All the fields of an order row that a call to `handleSideProcessing side`
never writes: the opposite side's state group, the identity and SKU, and the
order-level legacy columns. -/
def FramePreserved (side : Side) (o o' : OrderRow) : Prop :=
  getSide o' side.other = getSide o side.other
    ∧ o'.orderId = o.orderId
    ∧ o'.sku = o.sku
    ∧ o'.errorMessage = o.errorMessage
    ∧ o'.attemptCount = o.attemptCount
    ∧ o'.processedAt = o.processedAt

lemma frame_refl (side : Side) (o : OrderRow) : FramePreserved side o o :=
  ⟨rfl, rfl, rfl, rfl, rfl, rfl⟩

lemma frame_trans {side : Side} {o o' o'' : OrderRow}
    (h1 : FramePreserved side o o') (h2 : FramePreserved side o' o'') :
    FramePreserved side o o'' := by
  obtain ⟨a1, b1, c1, d1, e1, f1⟩ := h1
  obtain ⟨a2, b2, c2, d2, e2, f2⟩ := h2
  exact ⟨a2.trans a1, b2.trans b1, c2.trans c1, d2.trans d1, e2.trans e1, f2.trans f1⟩

lemma frame_setSide (side : Side) (o : OrderRow) (st : SideState) :
    FramePreserved side o (setSide o side st) := by
  cases side <;> exact ⟨rfl, rfl, rfl, rfl, rfl, rfl⟩

lemma frame_updatedAt (side : Side) (o : OrderRow) (n : Nat) :
    FramePreserved side o { o with updatedAt := n } := by
  cases side <;> exact ⟨rfl, rfl, rfl, rfl, rfl, rfl⟩

lemma frame_updateOverall (side : Side) (o : OrderRow) (n : Nat) :
    FramePreserved side o (updateOverallStatus n o) := by
  simp only [updateOverallStatus]
  split
  · cases side <;> exact ⟨rfl, rfl, rfl, rfl, rfl, rfl⟩
  · exact frame_refl side o

lemma frame_migrate (side : Side) (o : OrderRow) (n : Nat) :
    FramePreserved side o (migrateOldConfigError n side o) := by
  unfold migrateOldConfigError
  split
  · exact frame_refl side o
  · split
    · exact frame_trans (frame_setSide side o _) (frame_updatedAt side _ n)
    · exact frame_refl side o

/-- C10: a side-processing call, whatever its outcome (success, configuration
error, transient error, or pre-flight rejection), leaves the opposite side's
status, error message, attempt count and processed-at timestamp unchanged,
as well as the order's identity, SKU and legacy order-level columns; only
the requested side, the derived overall status and `updatedAt` are ever
written. -/
theorem side_processing_frame :
    ∀ (side : Side) (outcome : GenOutcome) (now : Nat) (o : OrderRow),
      FramePreserved side o (handleSideProcessing side outcome now o).1 := by
  intro side outcome now o
  by_cases h1 : side = Side.retro ∧ (getSide o side).status = .not_required
  · simp only [handleSideProcessing, if_pos h1]
    exact frame_refl side o
  · by_cases h2 : (getSide o side).status = SideStatus.processing
    · simp only [handleSideProcessing, if_neg h1, if_pos h2]
      exact frame_refl side o
    · cases outcome with
      | ok =>
        simp only [handleSideProcessing, if_neg h1, if_neg h2]
        exact frame_trans (frame_migrate side o now)
          (frame_trans
            (frame_trans (frame_setSide side _ _) (frame_updatedAt side _ now))
            (frame_trans
              (frame_trans (frame_setSide side _ _) (frame_updatedAt side _ now))
              (frame_updateOverall side _ now)))
      | fail msg =>
        simp only [handleSideProcessing, if_neg h1, if_neg h2]
        by_cases h3 : configErrorTest msg = true
        · rw [if_pos h3]
          exact frame_trans (frame_migrate side o now)
            (frame_trans
              (frame_trans (frame_setSide side _ _) (frame_updatedAt side _ now))
              (frame_trans
                (frame_trans (frame_setSide side _ _) (frame_updatedAt side _ now))
                (frame_updateOverall side _ now)))
        · rw [if_neg h3]
          exact frame_trans (frame_migrate side o now)
            (frame_trans
              (frame_trans (frame_setSide side _ _) (frame_updatedAt side _ now))
              (frame_trans
                (frame_trans (frame_setSide side _ _) (frame_updatedAt side _ now))
                (frame_updateOverall side _ now)))

/-- C5: requesting retro processing while the retro side is `not_required`
is rejected with the not-required reply, and requesting processing on a side
that is already `processing` is rejected with the conflict reply; both
rejections return the order row unchanged, so nothing is written. -/
theorem side_processing_preflight_rejections :
    ∀ (side : Side) (outcome : GenOutcome) (now : Nat) (o : OrderRow),
      ((side = Side.retro ∧ (getSide o side).status = .not_required) →
        handleSideProcessing side outcome now o = (o, .sideNotRequired))
      ∧ ((getSide o side).status = .processing →
        handleSideProcessing side outcome now o = (o, .alreadyProcessing)) := by
  intro side outcome now o
  constructor
  · intro h
    simp only [handleSideProcessing, if_pos h]
  · intro h2
    have h1 : ¬(side = Side.retro ∧ (getSide o side).status = .not_required) := by
      rintro ⟨hs, hn⟩
      rw [h2] at hn
      exact SideStatus.noConfusion hn
    simp only [handleSideProcessing, if_neg h1, if_pos h2]

/-- Witness for C5: both rejections at concrete inputs. -/
theorem side_processing_preflight_witness :
    handleSideProcessing Side.retro GenOutcome.ok 5 baseOrder =
        (baseOrder, Reply.sideNotRequired)
      ∧ handleSideProcessing Side.front (GenOutcome.fail (str "boom")) 5
          { baseOrder with
            fronte := { status := .processing, errorMessage := none, attemptCount := 0,
                        processedAt := none } } =
        ({ baseOrder with
            fronte := { status := .processing, errorMessage := none, attemptCount := 0,
                        processedAt := none } }, Reply.alreadyProcessing) :=
  ⟨(side_processing_preflight_rejections Side.retro GenOutcome.ok 5 baseOrder).1
      ⟨rfl, rfl⟩,
   (side_processing_preflight_rejections Side.front (GenOutcome.fail (str "boom")) 5
      { baseOrder with
        fronte := { status := .processing, errorMessage := none, attemptCount := 0,
                    processedAt := none } }).2 rfl⟩

lemma isPre_append (p : List Char) :
    ∀ q r : List Char, isPre p q = true → isPre p (q ++ r) = true := by
  induction p with
  | nil => intro q r _; rfl
  | cons a as ih =>
    intro q r h
    cases q with
    | nil => exact absurd h (by simp [isPre])
    | cons b bs =>
      simp only [isPre, Bool.and_eq_true] at h ⊢
      exact ⟨h.1, ih bs r h.2⟩

/-- One transient processing failure on the front side, used by the retry
ceiling scenario. -/
def transientFailStep (o : OrderRow) : OrderRow :=
  (handleSideProcessing .front (.fail lightburnTimeoutMsgExample) 1 o).1

/-- C3: a processing failure classified as a configuration error (which the
no-template and missing-template-file messages are) pins the side to
`error` with attempt count 999 and the message stored under the
`CONFIG_ERROR:` tag; any other failure increments the attempt count by one
and returns the side to `pending` below three attempts and to `error` from
three on; three consecutive transient failures drive the attempt count
1, 2, 3 with statuses pending, pending, error. -/
theorem side_failure_classification_and_retry :
    (∀ (side : Side) (o : OrderRow) (now : Nat) (msg : List Char),
      ¬(side = Side.retro ∧ (getSide o side).status = .not_required) →
      (getSide o side).status ≠ .processing →
      ((configErrorTest msg = true →
          getSide (handleSideProcessing side (.fail msg) now o).1 side =
            { status := .error
              errorMessage := some (tagConfig msg)
              attemptCount := 999
              processedAt := (getSide o side).processedAt })
        ∧ (configErrorTest msg = false →
          getSide (handleSideProcessing side (.fail msg) now o).1 side =
            { status := if (getSide o side).attemptCount + 1 < 3 then .pending else .error
              errorMessage := some msg
              attemptCount := (getSide o side).attemptCount + 1
              processedAt := (getSide o side).processedAt })))
    ∧ (∀ msg : List Char, isPre configErrorTag (tagConfig msg) = true)
    ∧ configErrorTest (noTemplateMatchMsg (str "MUG-RED-01") (str "front")) = true
    ∧ configErrorTest
        (templateFileNotFoundMsg (str "mug.lbrn2") (str "C:/templates/mug.lbrn2")) = true
    ∧ configErrorTest lightburnTimeoutMsgExample = false
    ∧ ((transientFailStep baseOrder).fronte.attemptCount = 1
        ∧ (transientFailStep baseOrder).fronte.status = .pending)
    ∧ ((transientFailStep (transientFailStep baseOrder)).fronte.attemptCount = 2
        ∧ (transientFailStep (transientFailStep baseOrder)).fronte.status = .pending)
    ∧ ((transientFailStep (transientFailStep (transientFailStep baseOrder))).fronte.attemptCount = 3
        ∧ (transientFailStep (transientFailStep (transientFailStep baseOrder))).fronte.status
            = .error) := by
  refine ⟨?_, ?_, by decide, by decide, by decide, by decide, by decide, by decide⟩
  · intro side o now msg h1 h2
    constructor
    · intro h3
      simp only [handleSideProcessing, if_neg h1, if_neg h2, if_pos h3,
        getSide_updateOverall, getSide_updatedAt, getSide_setSide, migrate_processedAt]
    · intro h3
      have h3' : ¬configErrorTest msg = true := by simp [h3]
      simp only [handleSideProcessing, if_neg h1, if_neg h2, if_neg h3',
        getSide_updateOverall, getSide_updatedAt, getSide_setSide, migrate_processedAt]
  · intro msg
    unfold tagConfig
    split
    · assumption
    · exact isPre_append configErrorTag (str "CONFIG_ERROR: ") msg (by decide)

/-- Witness for C3 at a concrete transient failure on a pending front side. -/
theorem side_failure_witness :
    getSide (handleSideProcessing Side.front (GenOutcome.fail lightburnTimeoutMsgExample)
        1 baseOrder).1 Side.front =
      { status := if (getSide baseOrder Side.front).attemptCount + 1 < 3 then
            SideStatus.pending
          else SideStatus.error
        errorMessage := some lightburnTimeoutMsgExample
        attemptCount := (getSide baseOrder Side.front).attemptCount + 1
        processedAt := (getSide baseOrder Side.front).processedAt } :=
  (side_failure_classification_and_retry.1 Side.front baseOrder 1 lightburnTimeoutMsgExample
    (by decide) (by decide)).2 (by decide)

/-! ### Manual reset/retry -/

/-- A pending order carrying a stale error message and a nonzero attempt
count. -/
def pendingWithError : OrderRow :=
  { baseOrder with errorMessage := some (str "boom"), attemptCount := 2 }

/-- Counterexample to C6 as stated: this order is not `processing`, yet the
retry operation rejects it and leaves the error message and attempt count
untouched instead of clearing them, because its status is `pending` rather
than `error` or `printed`. -/
theorem manual_retry_pending_cex :
    retryOrder 5 pendingWithError = (pendingWithError, RetryReply.invalidStatusReject)
      ∧ pendingWithError.status ≠ OverallStatus.processing
      ∧ pendingWithError.errorMessage ≠ none
      ∧ pendingWithError.attemptCount ≠ 0 := by
  decide

/-- C6 (amended): the manual reset/retry operation is rejected while the
status is `processing`, and also rejected (leaving the row unchanged) while
the status is `pending`; when the status is `error` or `printed` it clears
the error message, zeroes the attempt count and sets the status back to
`pending` unconditionally, bypassing the 3-attempt ceiling — in particular
an error row with the 999 sentinel resets to pending with attempt count
zero. -/
theorem manual_retry_reset_amended :
    ∀ (now : Nat) (o : OrderRow),
      (o.status = .processing → retryOrder now o = (o, .processingReject))
      ∧ (o.status = .pending → retryOrder now o = (o, .invalidStatusReject))
      ∧ ((o.status = .error ∨ o.status = .printed) →
          retryOrder now o =
            ({ o with
                status := .pending
                errorMessage := none
                attemptCount := 0
                updatedAt := now }, .resetOk)) := by
  intro now o
  refine ⟨?_, ?_, ?_⟩
  · intro h
    simp only [retryOrder, if_pos h]
  · intro h
    have h1 : ¬(o.status = OverallStatus.processing) := by
      rw [h]; intro hc; exact OverallStatus.noConfusion hc
    have h2 : o.status ≠ OverallStatus.error ∧ o.status ≠ OverallStatus.printed := by
      constructor <;> rw [h] <;> intro hc <;> exact OverallStatus.noConfusion hc
    simp only [retryOrder, if_neg h1, if_pos h2]
  · intro h
    have h1 : ¬(o.status = OverallStatus.processing) := by
      rcases h with h | h <;> rw [h] <;> intro hc <;> exact OverallStatus.noConfusion hc
    have h2 : ¬(o.status ≠ OverallStatus.error ∧ o.status ≠ OverallStatus.printed) := by
      rcases h with h | h
      · exact fun hc => hc.1 h
      · exact fun hc => hc.2 h
    simp only [retryOrder, if_neg h1, if_neg h2]

/-- An exhausted error row with the configuration sentinel. -/
def exhaustedError : OrderRow :=
  { baseOrder with
    status := .error
    errorMessage := some (str "CONFIG_ERROR: boom")
    attemptCount := 999 }

/-- Witness for amended C6: retry on an error row with attempt count 999
resets it to pending with attempt count zero. -/
theorem manual_retry_witness :
    retryOrder 9 exhaustedError =
      ({ exhaustedError with
          status := .pending
          errorMessage := none
          attemptCount := 0
          updatedAt := 9 }, RetryReply.resetOk) :=
  (manual_retry_reset_amended 9 exhaustedError).2.2 (Or.inl rfl)

/-! ### The synchronizer (`syncOrders`) -/

/-- A normalized feed record as used by the sync loop: a record whose
`orderId` did not resolve (or normalized to empty) carries `none`. -/
structure FeedRecord where
  orderId : Option (List Char)
  sku : Option (List Char)
deriving DecidableEq, Repr

/-- The row inserted for a new order. The side-state column defaults are
modelled from the spec (the schema migration adding the side columns is not
in the source tree): `front.status = pending`, `retro.status =
not_required`, attempt counts zero, messages and timestamps null; the
insert itself sets the order-level status to pending. -/
def newOrderRow (now : Nat) (oid : List Char) (rec : FeedRecord) : OrderRow :=
  { orderId := oid
    sku := rec.sku
    status := .pending
    errorMessage := none
    attemptCount := 0
    processedAt := none
    fronte := { status := .pending, errorMessage := none, attemptCount := 0, processedAt := none }
    retro := { status := .not_required, errorMessage := none, attemptCount := 0, processedAt := none }
    updatedAt := now }

/-- Result of the insert loop: the store after the conflict-ignoring
inserts, the three counters, and the set of orderIds seen in the pass. -/
structure InsertPassOut where
  store : List OrderRow
  added : Nat
  duplicates : Nat
  skipped : Nat
  ids : List (List Char)
deriving Repr

/-- The per-record loop of `syncOrders`: a record without an orderId counts
as skipped; otherwise the orderId joins the incoming set and the row is
inserted with conflict-ignore semantics — an existing orderId leaves the
store untouched and counts as a duplicate, a fresh one appends a new
default row and counts as added. -/
def insertPass (now : Nat) : List FeedRecord → List OrderRow → InsertPassOut
  | [], store => ⟨store, 0, 0, 0, []⟩
  | r :: rest, store =>
    match r.orderId with
    | none =>
      let out := insertPass now rest store
      { out with skipped := out.skipped + 1 }
    | some oid =>
      if store.any fun row => row.orderId = oid then
        let out := insertPass now rest store
        { out with duplicates := out.duplicates + 1, ids := oid :: out.ids }
      else
        let out := insertPass now rest (store ++ [newOrderRow now oid r])
        { out with added := out.added + 1, ids := oid :: out.ids }

/-- The reconciling delete: when the pass produced at least one orderId,
keep exactly the rows whose orderId was seen; a pass with no orderIds
deletes nothing. -/
def afterDeletePass (ids : List (List Char)) (store : List OrderRow) : List OrderRow :=
  if ids.isEmpty then store
  else store.filter fun row => decide (row.orderId ∈ ids)

/-- The `changes` count of the reconciling delete. -/
def deletedCount (ids : List (List Char)) (store : List OrderRow) : Nat :=
  if ids.isEmpty then 0
  else store.countP fun row => !decide (row.orderId ∈ ids)

/-- The retro-requirement promotion applied to one row in the post-pass: a
row from this pass whose retro side is `not_required` and whose SKU has a
retro template is promoted to `retro.status = pending`. -/
def retroPromote (rules : List TemplateRule) (ids : List (List Char)) (now : Nat)
    (row : OrderRow) : OrderRow :=
  if row.retro.status = .not_required ∧ row.orderId ∈ ids
      ∧ hasRetroTemplate row.sku rules = true then
    { row with retro := { row.retro with status := .pending }, updatedAt := now }
  else row

/-- The post-sync retro pass over the whole store (skipped entirely when the
pass produced no orderIds). -/
def retroPass (rules : List TemplateRule) (ids : List (List Char)) (now : Nat)
    (store : List OrderRow) : List OrderRow :=
  if ids.isEmpty then store
  else store.map (retroPromote rules ids now)

/-- The result record returned by `syncOrders`. -/
structure SyncResult where
  added : Nat
  duplicates : Nat
  deleted : Nat
  skipped : Nat
  totalParsed : Nat
deriving DecidableEq, Repr

/-- The only failure `syncOrders` can raise after parsing: the mapping
integrity check. -/
inductive SyncError where
  | integrity
deriving DecidableEq, Repr

/-- `syncOrders`: run the insert loop over the parsed feed, apply the
reconciling delete, raise the integrity error when a non-empty feed
produced no counted records at all, and otherwise run the retro-requirement
post-pass and return the counters. -/
def syncOrders (feed : List FeedRecord) (rules : List TemplateRule) (now : Nat)
    (store : List OrderRow) : Except SyncError (List OrderRow × SyncResult) :=
  if feed.length > 0 ∧ (insertPass now feed store).added + (insertPass now feed store).skipped
      + (insertPass now feed store).duplicates = 0 then
    Except.error SyncError.integrity
  else
    Except.ok
      (retroPass rules (insertPass now feed store).ids now
        (afterDeletePass (insertPass now feed store).ids (insertPass now feed store).store),
       { added := (insertPass now feed store).added
         duplicates := (insertPass now feed store).duplicates
         deleted := deletedCount (insertPass now feed store).ids (insertPass now feed store).store
         skipped := (insertPass now feed store).skipped
         totalParsed := feed.length })

/-- The orderIds carried by a feed, in order. -/
def feedIds (feed : List FeedRecord) : List (List Char) :=
  feed.filterMap FeedRecord.orderId

lemma feedIds_cons_none {r : FeedRecord} {rest : List FeedRecord} (h : r.orderId = none) :
    feedIds (r :: rest) = feedIds rest := by
  simp [feedIds, List.filterMap_cons, h]

lemma feedIds_cons_some {r : FeedRecord} {rest : List FeedRecord} {oid : List Char}
    (h : r.orderId = some oid) : feedIds (r :: rest) = oid :: feedIds rest := by
  simp [feedIds, List.filterMap_cons, h]

lemma insertPass_ids (now : Nat) :
    ∀ (feed : List FeedRecord) (store : List OrderRow),
      (insertPass now feed store).ids = feedIds feed
  | [], _ => rfl
  | r :: rest, store => by
    cases h : r.orderId with
    | none =>
      simp only [insertPass, h]
      rw [insertPass_ids now rest store]
      simp [feedIds, List.filterMap_cons, h]
    | some oid =>
      by_cases hdup : (store.any fun row => decide (row.orderId = oid)) = true
      · simp only [insertPass, h, if_pos hdup]
        rw [insertPass_ids now rest store]
        simp [feedIds, List.filterMap_cons, h]
      · simp only [insertPass, h, if_neg hdup]
        rw [insertPass_ids now rest (store ++ [newOrderRow now oid r])]
        simp [feedIds, List.filterMap_cons, h]

lemma insertPass_counts (now : Nat) :
    ∀ (feed : List FeedRecord) (store : List OrderRow),
      (insertPass now feed store).added + (insertPass now feed store).skipped
        + (insertPass now feed store).duplicates = feed.length
  | [], _ => rfl
  | r :: rest, store => by
    cases h : r.orderId with
    | none =>
      have ih := insertPass_counts now rest store
      simp only [insertPass, h, List.length_cons]
      omega
    | some oid =>
      by_cases hdup : (store.any fun row => decide (row.orderId = oid)) = true
      · have ih := insertPass_counts now rest store
        simp only [insertPass, h, if_pos hdup, List.length_cons]
        omega
      · have ih := insertPass_counts now rest (store ++ [newOrderRow now oid r])
        simp only [insertPass, h, if_neg hdup, List.length_cons]
        omega

lemma insertPass_store_decomp (now : Nat) :
    ∀ (feed : List FeedRecord) (store : List OrderRow),
      ∃ news : List OrderRow,
        (insertPass now feed store).store = store ++ news
          ∧ ∀ row ∈ news, row.orderId ∈ feedIds feed
  | [], store => ⟨[], by simp [insertPass], fun row hr => absurd hr (List.not_mem_nil row)⟩
  | r :: rest, store => by
    cases h : r.orderId with
    | none =>
      obtain ⟨news, h1, h2⟩ := insertPass_store_decomp now rest store
      refine ⟨news, ?_, ?_⟩
      · simp only [insertPass, h]
        exact h1
      · intro row hr
        have := h2 row hr
        simp [feedIds, List.filterMap_cons, h] at this ⊢
        exact this
    | some oid =>
      by_cases hdup : (store.any fun row => decide (row.orderId = oid)) = true
      · obtain ⟨news, h1, h2⟩ := insertPass_store_decomp now rest store
        refine ⟨news, ?_, ?_⟩
        · simp only [insertPass, h, if_pos hdup]
          exact h1
        · intro row hr
          have := h2 row hr
          simp [feedIds, List.filterMap_cons, h] at this ⊢
          exact Or.inr this
      · obtain ⟨news, h1, h2⟩ := insertPass_store_decomp now rest (store ++ [newOrderRow now oid r])
        refine ⟨newOrderRow now oid r :: news, ?_, ?_⟩
        · simp only [insertPass, h, if_neg hdup]
          rw [h1, List.append_assoc]
          rfl
        · intro row hr
          rcases List.mem_cons.mp hr with hEq | hMem
          · subst hEq
            simp [feedIds, List.filterMap_cons, h, newOrderRow]
          · have := h2 row hMem
            simp [feedIds, List.filterMap_cons, h] at this ⊢
            exact Or.inr this

lemma insertPass_store_mono (now : Nat) (feed : List FeedRecord) (store : List OrderRow) :
    ∀ row ∈ store, row ∈ (insertPass now feed store).store := by
  obtain ⟨news, h1, _⟩ := insertPass_store_decomp now feed store
  intro row hr
  rw [h1]
  exact List.mem_append_left news hr

lemma insertPass_covers (now : Nat) :
    ∀ (feed : List FeedRecord) (store : List OrderRow),
      ∀ oid ∈ feedIds feed, ∃ row ∈ (insertPass now feed store).store, row.orderId = oid
  | [], _ => by intro oid h; exact absurd h (List.not_mem_nil oid)
  | r :: rest, store => by
    intro oid hmem
    cases h : r.orderId with
    | none =>
      have hmem' : oid ∈ feedIds rest := by
        simpa [feedIds, List.filterMap_cons, h] using hmem
      simpa only [insertPass, h] using insertPass_covers now rest store oid hmem'
    | some oid' =>
      have hmem' : oid = oid' ∨ oid ∈ feedIds rest := by
        simpa [feedIds, List.filterMap_cons, h] using hmem
      by_cases hdup : (store.any fun row => decide (row.orderId = oid')) = true
      · simp only [insertPass, h, if_pos hdup]
        rcases hmem' with hEq | hMem
        · subst hEq
          obtain ⟨row, hrow, hp⟩ := List.any_eq_true.mp hdup
          exact ⟨row, insertPass_store_mono now rest store row hrow, of_decide_eq_true hp⟩
        · exact insertPass_covers now rest store oid hMem
      · simp only [insertPass, h, if_neg hdup]
        rcases hmem' with hEq | hMem
        · subst hEq
          refine ⟨newOrderRow now oid r, ?_, rfl⟩
          exact insertPass_store_mono now rest (store ++ [newOrderRow now oid r])
            (newOrderRow now oid r) (by simp)
        · exact insertPass_covers now rest (store ++ [newOrderRow now oid' r]) oid hMem

lemma insertPass_noop (now : Nat) :
    ∀ (feed : List FeedRecord) (store : List OrderRow),
      (∀ oid ∈ feedIds feed, ∃ row ∈ store, row.orderId = oid) →
      (insertPass now feed store).store = store
        ∧ (insertPass now feed store).added = 0
        ∧ (insertPass now feed store).duplicates = (feedIds feed).length
  | [], store => fun _ => ⟨rfl, rfl, rfl⟩
  | r :: rest, store => by
    intro hall
    cases h : r.orderId with
    | none =>
      have hall' : ∀ oid ∈ feedIds rest, ∃ row ∈ store, row.orderId = oid := by
        intro oid hmem
        exact hall oid ((feedIds_cons_none h).symm ▸ hmem)
      obtain ⟨h1, h2, h3⟩ := insertPass_noop now rest store hall'
      refine ⟨?_, ?_, ?_⟩ <;> simp only [insertPass, h, feedIds_cons_none h]
      · exact h1
      · exact h2
      · exact h3
    | some oid =>
      have hd : (store.any fun row => decide (row.orderId = oid)) = true := by
        obtain ⟨row, hrow, heq⟩ := hall oid ((feedIds_cons_some h) ▸ List.mem_cons_self oid _)
        exact List.any_eq_true.mpr ⟨row, hrow, decide_eq_true heq⟩
      have hall' : ∀ oid' ∈ feedIds rest, ∃ row ∈ store, row.orderId = oid' := by
        intro oid' hmem
        exact hall oid' ((feedIds_cons_some h) ▸ List.mem_cons_of_mem oid hmem)
      obtain ⟨h1, h2, h3⟩ := insertPass_noop now rest store hall'
      refine ⟨?_, ?_, ?_⟩ <;> simp only [insertPass, h, if_pos hd, feedIds_cons_some h,
        List.length_cons]
      · exact h1
      · exact h2
      · omega

lemma retroPromote_orderId (rules : List TemplateRule) (ids : List (List Char)) (now : Nat)
    (row : OrderRow) : (retroPromote rules ids now row).orderId = row.orderId := by
  unfold retroPromote
  split <;> rfl

lemma retroPromote_again (rules : List TemplateRule) (ids : List (List Char)) (n1 n2 : Nat)
    (row : OrderRow) :
    retroPromote rules ids n2 (retroPromote rules ids n1 row) = retroPromote rules ids n1 row := by
  unfold retroPromote
  by_cases hc : row.retro.status = .not_required ∧ row.orderId ∈ ids
      ∧ hasRetroTemplate row.sku rules = true
  · rw [if_pos hc, if_neg]
    intro hcon
    exact SideStatus.noConfusion hcon.1
  · rw [if_neg hc, if_neg hc]

lemma syncOrders_eq_ok (feed : List FeedRecord) (rules : List TemplateRule) (now : Nat)
    (store : List OrderRow) :
    syncOrders feed rules now store =
      Except.ok
        (retroPass rules (feedIds feed) now
          (afterDeletePass (feedIds feed) (insertPass now feed store).store),
         { added := (insertPass now feed store).added
           duplicates := (insertPass now feed store).duplicates
           deleted := deletedCount (feedIds feed) (insertPass now feed store).store
           skipped := (insertPass now feed store).skipped
           totalParsed := feed.length }) := by
  have hsum := insertPass_counts now feed store
  have hcond : ¬(feed.length > 0 ∧ (insertPass now feed store).added
      + (insertPass now feed store).skipped + (insertPass now feed store).duplicates = 0) := by
    omega
  simp only [syncOrders, if_neg hcond, insertPass_ids]

/-- C9: every parsed feed record is counted in exactly one of added,
duplicates or skipped, so their sum always equals `totalParsed`; in
consequence the integrity branch guarded by `totalParsed > 0 ∧ added +
skipped + duplicates = 0` is unreachable and `syncOrders` always returns
normally instead of throwing its mapping-integrity error. -/
theorem sync_counts_partition_no_integrity_error :
    ∀ (feed : List FeedRecord) (rules : List TemplateRule) (now : Nat)
      (store : List OrderRow),
      ∃ result : List OrderRow × SyncResult,
        syncOrders feed rules now store = Except.ok result
          ∧ result.2.added + result.2.duplicates + result.2.skipped = result.2.totalParsed := by
  intro feed rules now store
  have hsum := insertPass_counts now feed store
  refine ⟨_, syncOrders_eq_ok feed rules now store, ?_⟩
  simp only
  omega

lemma isEmpty_false_of_ne_nil {ids : List (List Char)} (h : ids ≠ []) :
    ids.isEmpty = false := by
  cases hfe : ids with
  | nil => exact absurd hfe h
  | cons a l => rfl

lemma sync_store_mem_ids (rules : List TemplateRule) (ids : List (List Char)) (now : Nat)
    (store0 : List OrderRow) (hne : ids.isEmpty = false) :
    ∀ row ∈ retroPass rules ids now (afterDeletePass ids store0), row.orderId ∈ ids := by
  intro row hr
  unfold retroPass afterDeletePass at hr
  rw [hne] at hr
  simp only [Bool.false_eq_true, if_false] at hr
  obtain ⟨row0, hr0, hEq⟩ := List.mem_map.mp hr
  obtain ⟨_, hp⟩ := List.mem_filter.mp hr0
  rw [← hEq, retroPromote_orderId]
  exact of_decide_eq_true hp

lemma sync_store_covers (rules : List TemplateRule) (ids : List (List Char)) (now : Nat)
    (store0 : List OrderRow) (hne : ids.isEmpty = false) :
    ∀ oid, (∃ row ∈ store0, row.orderId = oid) → oid ∈ ids →
      ∃ row ∈ retroPass rules ids now (afterDeletePass ids store0), row.orderId = oid := by
  rintro oid ⟨row, hrow, hid⟩ hoid
  have hf : row ∈ afterDeletePass ids store0 := by
    unfold afterDeletePass
    rw [hne]
    simp only [Bool.false_eq_true, if_false]
    exact List.mem_filter.mpr ⟨hrow, decide_eq_true (hid ▸ hoid)⟩
  refine ⟨retroPromote rules ids now row, ?_, ?_⟩
  · unfold retroPass
    rw [hne]
    simp only [Bool.false_eq_true, if_false]
    exact List.mem_map_of_mem _ hf
  · rw [retroPromote_orderId]
    exact hid

/-- Counterexample to C7 as stated. First: after a sync pass over an empty
feed, a persisted order absent from the feed survives (the reconciling
delete is skipped entirely when the pass carries no orderIds) and `deleted`
is 0. Second: an order present both before the sync and in the feed is not
preserved with all side-state fields intact — the retro post-pass moves its
`retro.status` from `not_required` to `pending` when a retro template
resolves for its SKU. -/
theorem sync_reconcile_cex :
    syncOrders [] [] 0 [baseOrder] = Except.ok ([baseOrder], ⟨0, 0, 0, 0, 0⟩)
      ∧ feedIds [] = []
      ∧ syncOrders [⟨some (str "ORD-1"), some (str "MUG-RED-01")⟩]
          [⟨str "MUG", str "m-retro.lbrn2", 1⟩] 7 [baseOrder] =
        Except.ok
          ([{ baseOrder with
              retro := { baseOrder.retro with status := .pending }
              updatedAt := 7 }], ⟨0, 1, 0, 0, 1⟩)
      ∧ baseOrder.retro.status = SideStatus.not_required
      ∧ ({ baseOrder with
            retro := { baseOrder.retro with status := SideStatus.pending }
            updatedAt := 7 } : OrderRow).retro ≠ baseOrder.retro := by
  refine ⟨rfl, rfl, ?_, rfl, by decide⟩
  rfl

/-- C7 (amended): when the feed pass carries at least one orderId, every row
of the post-sync store has an orderId from the pass (absent orders are
deleted), the `deleted` counter is exactly the number of previously
persisted rows whose orderId was not in the pass, and every order present
both before the sync and in the feed survives with its orderId, front side
and SKU intact and its retro side intact except that the post-pass may
promote `retro.status` from `not_required` to `pending` when a retro
template resolves for its SKU; a pass with no orderIds deletes nothing. -/
theorem sync_reconcile_amended :
    ∀ (feed : List FeedRecord) (rules : List TemplateRule) (now : Nat)
      (store store' : List OrderRow) (res : SyncResult),
      feedIds feed ≠ [] →
      syncOrders feed rules now store = Except.ok (store', res) →
      ((∀ row ∈ store', row.orderId ∈ feedIds feed)
        ∧ res.deleted = store.countP (fun row => !decide (row.orderId ∈ feedIds feed))
        ∧ (∀ row ∈ store, row.orderId ∈ feedIds feed →
            ∃ row' ∈ store', row'.orderId = row.orderId
              ∧ row'.fronte = row.fronte
              ∧ row'.sku = row.sku
              ∧ (row'.retro = row.retro
                  ∨ (row.retro.status = .not_required
                      ∧ hasRetroTemplate row.sku rules = true
                      ∧ row'.retro = { row.retro with status := .pending })))) := by
  intro feed rules now store store' res hids hok
  have hne : (feedIds feed).isEmpty = false := isEmpty_false_of_ne_nil hids
  rw [syncOrders_eq_ok, Except.ok.injEq, Prod.mk.injEq] at hok
  obtain ⟨h1, h2⟩ := hok
  subst h1
  subst h2
  obtain ⟨news, hdec, hnews⟩ := insertPass_store_decomp now feed store
  refine ⟨sync_store_mem_ids rules (feedIds feed) now _ hne, ?_, ?_⟩
  · show deletedCount (feedIds feed) (insertPass now feed store).store =
      store.countP fun row => !decide (row.orderId ∈ feedIds feed)
    unfold deletedCount
    rw [hne]
    simp only [Bool.false_eq_true, if_false]
    rw [hdec, List.countP_append]
    have hz : news.countP (fun row => !decide (row.orderId ∈ feedIds feed)) = 0 := by
      rw [List.countP_eq_zero]
      intro row hr
      simp [hnews row hr]
    rw [hz]
    omega
  · intro row hrow hmem
    have hin : row ∈ (insertPass now feed store).store := by
      rw [hdec]
      exact List.mem_append_left news hrow
    have hf : row ∈ afterDeletePass (feedIds feed) (insertPass now feed store).store := by
      unfold afterDeletePass
      rw [hne]
      simp only [Bool.false_eq_true, if_false]
      exact List.mem_filter.mpr ⟨hin, decide_eq_true hmem⟩
    refine ⟨retroPromote rules (feedIds feed) now row, ?_,
      retroPromote_orderId rules (feedIds feed) now row, ?_, ?_, ?_⟩
    · unfold retroPass
      rw [hne]
      simp only [Bool.false_eq_true, if_false]
      exact List.mem_map_of_mem _ hf
    · unfold retroPromote
      split <;> rfl
    · unfold retroPromote
      split <;> rfl
    · unfold retroPromote
      by_cases hc : row.retro.status = .not_required ∧ row.orderId ∈ feedIds feed
          ∧ hasRetroTemplate row.sku rules = true
      · rw [if_pos hc]
        exact Or.inr ⟨hc.1, hc.2.2, rfl⟩
      · rw [if_neg hc]
        exact Or.inl rfl

/-- Witness for amended C7 at a concrete feed, rule list and store. -/
theorem sync_reconcile_witness :
    (∀ row ∈ [newOrderRow 3 (str "A") ⟨some (str "A"), none⟩],
        row.orderId ∈ feedIds [⟨some (str "A"), none⟩])
      ∧ (⟨1, 0, 0, 0, 1⟩ : SyncResult).deleted =
          ([] : List OrderRow).countP
            (fun row => !decide (row.orderId ∈ feedIds [⟨some (str "A"), none⟩]))
      ∧ (∀ row ∈ ([] : List OrderRow), row.orderId ∈ feedIds [⟨some (str "A"), none⟩] →
          ∃ row' ∈ [newOrderRow 3 (str "A") ⟨some (str "A"), none⟩],
            row'.orderId = row.orderId
              ∧ row'.fronte = row.fronte
              ∧ row'.sku = row.sku
              ∧ (row'.retro = row.retro
                  ∨ (row.retro.status = .not_required
                      ∧ hasRetroTemplate row.sku [] = true
                      ∧ row'.retro = { row.retro with status := .pending }))) :=
  sync_reconcile_amended [⟨some (str "A"), none⟩] [] 3 []
    [newOrderRow 3 (str "A") ⟨some (str "A"), none⟩] ⟨1, 0, 0, 0, 1⟩
    (by decide) rfl

/-- C8: running `syncOrders` a second time on an unchanged feed (with the
same rule set) returns the store unchanged — every side-state field of
every order, including through the retro-requirement post-pass — with
`added = 0` and every orderId-carrying record counted as a duplicate. -/
theorem sync_idempotent :
    ∀ (feed : List FeedRecord) (rules : List TemplateRule) (n1 n2 : Nat)
      (store s1 : List OrderRow) (r1 : SyncResult),
      syncOrders feed rules n1 store = Except.ok (s1, r1) →
      ∃ r2 : SyncResult,
        syncOrders feed rules n2 s1 = Except.ok (s1, r2)
          ∧ r2.added = 0 ∧ r2.duplicates = (feedIds feed).length := by
  intro feed rules n1 n2 store s1 r1 hok
  rw [syncOrders_eq_ok, Except.ok.injEq, Prod.mk.injEq] at hok
  obtain ⟨h1, _⟩ := hok
  by_cases hids : feedIds feed = []
  · obtain ⟨hs, ha, hd⟩ := insertPass_noop n2 feed s1
      (by rw [hids]; intro oid h; exact absurd h (List.not_mem_nil oid))
    have hstore2 : retroPass rules (feedIds feed) n2
        (afterDeletePass (feedIds feed) (insertPass n2 feed s1).store) = s1 := by
      rw [hids]
      simp only [retroPass, afterDeletePass, List.isEmpty_nil, if_true]
      exact hs
    have hrun2 := syncOrders_eq_ok feed rules n2 s1
    rw [hstore2] at hrun2
    exact ⟨_, hrun2, ha, hd⟩
  · have hne : (feedIds feed).isEmpty = false := isEmpty_false_of_ne_nil hids
    have hmemids : ∀ row ∈ s1, row.orderId ∈ feedIds feed := by
      rw [← h1]
      exact sync_store_mem_ids rules (feedIds feed) n1 _ hne
    have hcov : ∀ oid ∈ feedIds feed, ∃ row ∈ s1, row.orderId = oid := by
      intro oid hoid
      rw [← h1]
      exact sync_store_covers rules (feedIds feed) n1 _ hne oid
        (insertPass_covers n1 feed store oid hoid) hoid
    obtain ⟨hs, ha, hd⟩ := insertPass_noop n2 feed s1 hcov
    have hform : s1 = (afterDeletePass (feedIds feed) (insertPass n1 feed store).store).map
        (retroPromote rules (feedIds feed) n1) := by
      rw [← h1]
      unfold retroPass
      rw [hne]
      simp only [Bool.false_eq_true, if_false]
    have hfilter : afterDeletePass (feedIds feed) s1 = s1 := by
      unfold afterDeletePass
      rw [hne]
      simp only [Bool.false_eq_true, if_false]
      exact List.filter_eq_self.mpr fun row hr => decide_eq_true (hmemids row hr)
    have hmap : retroPass rules (feedIds feed) n2 s1 = s1 := by
      unfold retroPass
      rw [hne]
      simp only [Bool.false_eq_true, if_false]
      calc s1.map (retroPromote rules (feedIds feed) n2)
          = ((afterDeletePass (feedIds feed) (insertPass n1 feed store).store).map
              (retroPromote rules (feedIds feed) n1)).map
              (retroPromote rules (feedIds feed) n2) := by rw [← hform]
        _ = (afterDeletePass (feedIds feed) (insertPass n1 feed store).store).map
              (retroPromote rules (feedIds feed) n2 ∘ retroPromote rules (feedIds feed) n1) :=
            List.map_map _ _ _
        _ = (afterDeletePass (feedIds feed) (insertPass n1 feed store).store).map
              (retroPromote rules (feedIds feed) n1) :=
            List.map_congr_left fun a _ => retroPromote_again rules (feedIds feed) n1 n2 a
        _ = s1 := hform.symm
    have hstore2 : retroPass rules (feedIds feed) n2
        (afterDeletePass (feedIds feed) (insertPass n2 feed s1).store) = s1 := by
      rw [hs, hfilter, hmap]
    have hrun2 := syncOrders_eq_ok feed rules n2 s1
    rw [hstore2] at hrun2
    exact ⟨_, hrun2, ha, hd⟩

/-- Witness for C8: a second sync over a one-record feed returns the store
of the first sync unchanged with `added = 0`. -/
theorem sync_idempotent_witness :
    ∃ r2 : SyncResult,
      syncOrders [⟨some (str "A"), none⟩] [] 2
          [newOrderRow 1 (str "A") ⟨some (str "A"), none⟩] =
        Except.ok ([newOrderRow 1 (str "A") ⟨some (str "A"), none⟩], r2)
        ∧ r2.added = 0
        ∧ r2.duplicates = (feedIds [⟨some (str "A"), none⟩]).length :=
  sync_idempotent [⟨some (str "A"), none⟩] [] 1 2 []
    [newOrderRow 1 (str "A") ⟨some (str "A"), none⟩] ⟨1, 0, 0, 0, 1⟩ rfl

end VictoriaLaser
